import Mathlib

/-!
Verification of the payload-construction layer of the Playground Saver
repository (app.py, api/index.py, chat.py, continue_conversation.py).

The Python sources are shallowly embedded: byte buffers become `List Nat`
(each entry < 256 where it matters), Python strings become `String`
manipulated through their underlying `List Char` (Python compares and
lowercases strings by code points; the identifiers and file extensions
involved here are ASCII), raised exceptions become `Except`, and the
file system seen by the CLI tools becomes a function from path names to
optional byte contents.
-/

namespace PlaygroundSaver

/-! ## Code-point string helpers

Python string primitives used by the sources, modelled over the
character lists underlying `String`.  They are written structurally so
that concrete instances reduce inside the kernel. -/

/-- ASCII lowercasing of one character, as Python `str.lower` acts on the
ASCII identifiers and extensions handled by this repository. -/
def lowerChar (c : Char) : Char :=
  if 65 ≤ c.toNat ∧ c.toNat ≤ 90 then Char.ofNat (c.toNat + 32) else c

/-- Python `s.lower()` restricted to ASCII input. -/
def lowerStr (s : String) : String := String.mk (s.data.map lowerChar)

/-- Lexicographic order on character lists by code point, the order Python
uses to compare strings. -/
def charsLe : List Char → List Char → Bool
  | [], _ => true
  | _ :: _, [] => false
  | a :: as, b :: bs =>
    if a.toNat < b.toNat then true
    else if a.toNat = b.toNat then charsLe as bs
    else false

/-- Python `a <= b` on strings (code-point lexicographic order). -/
def strLe (a b : String) : Bool := charsLe a.data b.data

/-- Python `needle in hay` substring membership. -/
def substrIn (needle hay : String) : Bool :=
  hay.data.tails.any (fun t => needle.data.isPrefixOf t)

/-- Python `s.startswith(p)`. -/
def strStarts (s p : String) : Bool := p.data.isPrefixOf s.data

/-! ## Base64

`base64.standard_b64encode` from the Python standard library: standard
alphabet, padded output, bytes taken three at a time.  `b64decodeList` is
the reference decoder used to state the round-trip property. -/

/-- The standard base64 alphabet. -/
def b64alphabet : List Char :=
  "ABCDEFGHIJKLMNOPQRSTUVWXYZabcdefghijklmnopqrstuvwxyz0123456789+/".data

/-- Character of the standard base64 alphabet at a 6-bit index. -/
def b64char (n : Nat) : Char := b64alphabet.getD n 'A'

/-- Index of a character in the standard base64 alphabet. -/
def b64idxAux : List Char → Char → Nat → Option Nat
  | [], _, _ => none
  | a :: rest, c, i => if a = c then some i else b64idxAux rest c (i + 1)

/-- Position of a character in the base64 alphabet, `none` for characters
outside the alphabet (such as the padding character). -/
def b64idx (c : Char) : Option Nat := b64idxAux b64alphabet c 0

/-- Standard padded base64 encoding of a byte list, as
`base64.standard_b64encode` produces it. -/
def b64encodeList : List Nat → List Char
  | [] => []
  | [a] => [b64char (a / 4), b64char (a % 4 * 16), '=', '=']
  | [a, b] =>
    [b64char (a / 4), b64char (a % 4 * 16 + b / 16), b64char (b % 16 * 4), '=']
  | a :: b :: c :: rest =>
    b64char (a / 4) :: b64char (a % 4 * 16 + b / 16)
      :: b64char (b % 16 * 4 + c / 64) :: b64char (c % 64) :: b64encodeList rest

/-- Reference decoder for standard padded base64, inverse of
`b64encodeList` on valid input. -/
def b64decodeList : List Char → Option (List Nat)
  | [] => some []
  | w :: x :: y :: z :: rest =>
    match b64idx w, b64idx x with
    | some i, some j =>
      if y = '=' then
        if z = '=' then
          if rest = [] then some [i * 4 + j / 16] else none
        else none
      else
        match b64idx y with
        | some k =>
          if z = '=' then
            if rest = [] then some [i * 4 + j / 16, j % 16 * 16 + k / 4] else none
          else
            match b64idx z, b64decodeList rest with
            | some m, some tail =>
              some ((i * 4 + j / 16) :: (j % 16 * 16 + k / 4) :: (k % 4 * 64 + m) :: tail)
            | _, _ => none
        | none => none
    | _, _ => none
  | _ => none

/-- Decoding a base64 string produced from bytes. -/
def b64decodeStr (s : String) : Option (List Nat) := b64decodeList s.data

theorem b64idx_b64char : ∀ n : Nat, n < 64 → b64idx (b64char n) = some n := by
  decide

theorem b64char_ne_pad : ∀ n : Nat, n < 64 → b64char n ≠ '=' := by
  decide

theorem b64_roundtrip : ∀ l : List Nat, (∀ x ∈ l, x < 256) →
    b64decodeList (b64encodeList l) = some l
  | [], _ => rfl
  | [a], h => by
    have ha : a < 256 := h a (by simp)
    show b64decodeList [b64char (a / 4), b64char (a % 4 * 16), '=', '='] = some [a]
    rw [b64decodeList, b64idx_b64char (a / 4) (by omega),
      b64idx_b64char (a % 4 * 16) (by omega)]
    simp only [reduceIte]
    simp
    omega
  | [a, b], h => by
    have ha : a < 256 := h a (by simp)
    have hb : b < 256 := h b (by simp)
    show b64decodeList [b64char (a / 4), b64char (a % 4 * 16 + b / 16),
      b64char (b % 16 * 4), '='] = some [a, b]
    rw [b64decodeList, b64idx_b64char (a / 4) (by omega),
      b64idx_b64char (a % 4 * 16 + b / 16) (by omega)]
    have hne : b64char (b % 16 * 4) ≠ '=' := b64char_ne_pad (b % 16 * 4) (by omega)
    simp [hne, b64idx_b64char (b % 16 * 4) (by omega)]
    omega
  | a :: b :: c :: rest, h => by
    have ha : a < 256 := h a (by simp)
    have hb : b < 256 := h b (by simp)
    have hc : c < 256 := h c (by simp)
    have ih := b64_roundtrip rest (fun x hx => h x (by simp [hx]))
    show b64decodeList (b64char (a / 4) :: b64char (a % 4 * 16 + b / 16)
      :: b64char (b % 16 * 4 + c / 64) :: b64char (c % 64) :: b64encodeList rest)
      = some (a :: b :: c :: rest)
    rw [b64decodeList, b64idx_b64char (a / 4) (by omega),
      b64idx_b64char (a % 4 * 16 + b / 16) (by omega)]
    have h1 : b64char (b % 16 * 4 + c / 64) ≠ '=' :=
      b64char_ne_pad (b % 16 * 4 + c / 64) (by omega)
    have h2 : b64char (c % 64) ≠ '=' := b64char_ne_pad (c % 64) (by omega)
    simp [h1, h2, b64idx_b64char (b % 16 * 4 + c / 64) (by omega),
      b64idx_b64char (c % 64) (by omega), ih]
    omega

/-! ## File extensions and MIME detection

The encoders detect a MIME type with `mimetypes.guess_type` and fall back
to a five-entry table keyed by `pathlib.Path(...).suffix.lower()`. -/

/-- The built-in default extension table of the Python `mimetypes`
module (CPython 3.11, `strict` entries), which `mimetypes.guess_type`
consults; system files can only extend it, and none of the claims here
depend on such extensions. -/
def types_map : List (String × String) := [
  (".3g2", "audio/3gpp2"),
  (".3gp", "audio/3gpp"),
  (".3gpp", "audio/3gpp"),
  (".3gpp2", "audio/3gpp2"),
  (".a", "application/octet-stream"),
  (".aac", "audio/aac"),
  (".adts", "audio/aac"),
  (".ai", "application/postscript"),
  (".aif", "audio/x-aiff"),
  (".aifc", "audio/x-aiff"),
  (".aiff", "audio/x-aiff"),
  (".ass", "audio/aac"),
  (".au", "audio/basic"),
  (".avi", "video/x-msvideo"),
  (".avif", "image/avif"),
  (".bat", "text/plain"),
  (".bcpio", "application/x-bcpio"),
  (".bin", "application/octet-stream"),
  (".bmp", "image/bmp"),
  (".c", "text/plain"),
  (".cdf", "application/x-netcdf"),
  (".cpio", "application/x-cpio"),
  (".csh", "application/x-csh"),
  (".css", "text/css"),
  (".csv", "text/csv"),
  (".dll", "application/octet-stream"),
  (".doc", "application/msword"),
  (".dot", "application/msword"),
  (".dvi", "application/x-dvi"),
  (".eml", "message/rfc822"),
  (".eps", "application/postscript"),
  (".etx", "text/x-setext"),
  (".exe", "application/octet-stream"),
  (".gif", "image/gif"),
  (".gtar", "application/x-gtar"),
  (".h", "text/plain"),
  (".h5", "application/x-hdf5"),
  (".hdf", "application/x-hdf"),
  (".heic", "image/heic"),
  (".heif", "image/heif"),
  (".htm", "text/html"),
  (".html", "text/html"),
  (".ico", "image/vnd.microsoft.icon"),
  (".ief", "image/ief"),
  (".jpe", "image/jpeg"),
  (".jpeg", "image/jpeg"),
  (".jpg", "image/jpeg"),
  (".js", "application/javascript"),
  (".json", "application/json"),
  (".ksh", "text/plain"),
  (".latex", "application/x-latex"),
  (".loas", "audio/aac"),
  (".m1v", "video/mpeg"),
  (".m3u", "application/vnd.apple.mpegurl"),
  (".m3u8", "application/vnd.apple.mpegurl"),
  (".man", "application/x-troff-man"),
  (".me", "application/x-troff-me"),
  (".mht", "message/rfc822"),
  (".mhtml", "message/rfc822"),
  (".mif", "application/x-mif"),
  (".mjs", "application/javascript"),
  (".mov", "video/quicktime"),
  (".movie", "video/x-sgi-movie"),
  (".mp2", "audio/mpeg"),
  (".mp3", "audio/mpeg"),
  (".mp4", "video/mp4"),
  (".mpa", "video/mpeg"),
  (".mpe", "video/mpeg"),
  (".mpeg", "video/mpeg"),
  (".mpg", "video/mpeg"),
  (".ms", "application/x-troff-ms"),
  (".n3", "text/n3"),
  (".nc", "application/x-netcdf"),
  (".nq", "application/n-quads"),
  (".nt", "application/n-triples"),
  (".nws", "message/rfc822"),
  (".o", "application/octet-stream"),
  (".obj", "application/octet-stream"),
  (".oda", "application/oda"),
  (".opus", "audio/opus"),
  (".p12", "application/x-pkcs12"),
  (".p7c", "application/pkcs7-mime"),
  (".pbm", "image/x-portable-bitmap"),
  (".pdf", "application/pdf"),
  (".pfx", "application/x-pkcs12"),
  (".pgm", "image/x-portable-graymap"),
  (".pl", "text/plain"),
  (".png", "image/png"),
  (".pnm", "image/x-portable-anymap"),
  (".pot", "application/vnd.ms-powerpoint"),
  (".ppa", "application/vnd.ms-powerpoint"),
  (".ppm", "image/x-portable-pixmap"),
  (".pps", "application/vnd.ms-powerpoint"),
  (".ppt", "application/vnd.ms-powerpoint"),
  (".ps", "application/postscript"),
  (".pwz", "application/vnd.ms-powerpoint"),
  (".py", "text/x-python"),
  (".pyc", "application/x-python-code"),
  (".pyo", "application/x-python-code"),
  (".qt", "video/quicktime"),
  (".ra", "audio/x-pn-realaudio"),
  (".ram", "application/x-pn-realaudio"),
  (".ras", "image/x-cmu-raster"),
  (".rdf", "application/xml"),
  (".rgb", "image/x-rgb"),
  (".roff", "application/x-troff"),
  (".rtx", "text/richtext"),
  (".sgm", "text/x-sgml"),
  (".sgml", "text/x-sgml"),
  (".sh", "application/x-sh"),
  (".shar", "application/x-shar"),
  (".snd", "audio/basic"),
  (".so", "application/octet-stream"),
  (".src", "application/x-wais-source"),
  (".srt", "text/plain"),
  (".sv4cpio", "application/x-sv4cpio"),
  (".sv4crc", "application/x-sv4crc"),
  (".svg", "image/svg+xml"),
  (".swf", "application/x-shockwave-flash"),
  (".t", "application/x-troff"),
  (".tar", "application/x-tar"),
  (".tcl", "application/x-tcl"),
  (".tex", "application/x-tex"),
  (".texi", "application/x-texinfo"),
  (".texinfo", "application/x-texinfo"),
  (".tif", "image/tiff"),
  (".tiff", "image/tiff"),
  (".tr", "application/x-troff"),
  (".trig", "application/trig"),
  (".tsv", "text/tab-separated-values"),
  (".txt", "text/plain"),
  (".ustar", "application/x-ustar"),
  (".vcf", "text/x-vcard"),
  (".vtt", "text/vtt"),
  (".wasm", "application/wasm"),
  (".wav", "audio/x-wav"),
  (".webm", "video/webm"),
  (".webmanifest", "application/manifest+json"),
  (".wiz", "application/msword"),
  (".wsdl", "application/xml"),
  (".xbm", "image/x-xbitmap"),
  (".xlb", "application/vnd.ms-excel"),
  (".xls", "application/vnd.ms-excel"),
  (".xml", "text/xml"),
  (".xpdl", "application/xml"),
  (".xpm", "image/x-xpixmap"),
  (".xsl", "application/xml"),
  (".xwd", "image/x-xwindowdump"),
  (".zip", "application/zip")]

/-- The compression-suffix rewrite table of the Python `mimetypes` module
(`.tgz` stands for `.tar.gz` and so on). -/
def suffix_map : List (String × String) :=
  [(".svgz", ".svg.gz"), (".tgz", ".tar.gz"), (".taz", ".tar.gz"),
   (".tz", ".tar.gz"), (".tbz2", ".tar.bz2"), (".txz", ".tar.xz")]

/-- Keys of the encoding table of the Python `mimetypes` module, matched
case-sensitively; a matching suffix is stripped before the type lookup. -/
def encodings_map_keys : List String := [".gz", ".Z", ".bz2", ".xz", ".br"]

/-- Python `posixpath.splitext` over characters: the extension starts at
the last dot of the final path component, unless every character of that
component before the last dot is itself a dot (leading dots of a hidden
file are not an extension). -/
def splitextChars (l : List Char) : List Char × List Char :=
  let comp := (l.reverse.takeWhile (fun c => c ≠ '/')).reverse
  let pre := l.take (l.length - comp.length)
  let extRev := comp.reverse.takeWhile (fun c => c ≠ '.')
  if extRev.length = comp.length then (l, [])
  else
    let stem := comp.take (comp.length - extRev.length - 1)
    if stem.any (fun c => c ≠ '.') then (pre ++ stem, '.' :: extRev.reverse)
    else (l, [])

/-- Extension part of `posixpath.splitext`, lowercased as the lookups
need it. -/
def splitextExtLower (s : String) : String :=
  lowerStr (String.mk (splitextChars s.data).snd)

/-- Python `mimetypes.guess_type` (strict mode, built-in table) on a plain
file name or path.  The sources call it on upload file names and local
image paths; the URL-scheme and data-URL branches of the Python
implementation are unreachable for such arguments and are not modelled.
The Python implementation loops over `suffix_map`; no replacement suffix
is itself a key of `suffix_map`, so the loop body runs at most once and a
single conditional rewrite models it. -/
def guess_type (filename : String) : Option String :=
  let p1 := splitextChars filename.data
  let p2 :=
    match suffix_map.lookup (lowerStr (String.mk p1.snd)) with
    | some repl => splitextChars (p1.fst ++ repl.data)
    | none => p1
  let ext :=
    if encodings_map_keys.contains (String.mk p2.snd) then (splitextChars p2.fst).snd
    else p2.snd
  types_map.lookup (lowerStr (String.mk ext))

/-- The final component of a path, as `pathlib.PurePath.name` computes it
for paths without single-dot or double-dot components: trailing
separators are ignored and the part after the last separator is taken. -/
def pathName (p : String) : String :=
  let r := p.data.reverse.dropWhile (fun c => c = '/')
  let comp := (r.takeWhile (fun c => c ≠ '/')).reverse
  if comp = ['.'] ∨ comp = ['.', '.'] then "" else String.mk comp

/-- Python `pathlib.PurePath.suffix`: the extension of the final
component, present exactly when the last dot of the name is neither its
first nor its last character. -/
def pathSuffix (p : String) : String :=
  let name := (pathName p).data
  let tailRev := name.reverse.takeWhile (fun c => c ≠ '.')
  if tailRev.length = name.length then ""
  else if tailRev.length = 0 then ""
  else if tailRev.length + 1 = name.length then ""
  else String.mk ('.' :: tailRev.reverse)

/-- Python `str(pathlib.Path(p))` for the aspects `guess_type` observes:
trailing separators are stripped.  (pathlib also collapses interior
duplicate separators, which never changes the extension of the final
component, the only part `guess_type` reads.) -/
def strOfPath (p : String) : String :=
  let r := p.data.reverse.dropWhile (fun c => c = '/')
  if r = [] then (if p.data = [] then "." else "/") else String.mk r.reverse

/-- The five-entry fallback table written out in `encode_image_bytes`
(app.py, api/index.py) and `encode_image` (chat.py,
continue_conversation.py). -/
def mime_map : List (String × String) :=
  [(".png", "image/png"), (".jpg", "image/jpeg"), (".jpeg", "image/jpeg"),
   (".gif", "image/gif"), (".webp", "image/webp")]

/-! ## Attachment encoders -/

/-- app.py `encode_image_bytes` (the identical function also appears in
api/index.py): standard base64 of the bytes, MIME type from
`mimetypes.guess_type` on the file name, falling back to the five-entry
table on `Path(filename).suffix.lower()` with default image/png. -/
def encode_image_bytes (data : List Nat) (filename : String) : String × String :=
  let mime_type :=
    match guess_type filename with
    | some m => m
    | none => (mime_map.lookup (lowerStr (pathSuffix filename))).getD "image/png"
  (String.mk (b64encodeList data), mime_type)

/-- A file system as the CLI tools observe it: path names mapped to the
byte contents of existing files. -/
def FileSystem : Type := String → Option (List Nat)

/-- chat.py and continue_conversation.py `encode_image`: raises
FileNotFoundError when the path does not exist, otherwise detects the
MIME type exactly as `encode_image_bytes` does (guess on `str(path)`,
fallback on `path.suffix.lower()`) and base64-encodes the file contents. -/
def encode_image (fs : FileSystem) (image_path : String) :
    Except String (String × String) :=
  match fs image_path with
  | none => .error ("Image not found: " ++ image_path)
  | some bytes =>
    let mime_type :=
      match guess_type (strOfPath image_path) with
      | some m => m
      | none => (mime_map.lookup (lowerStr (pathSuffix image_path))).getD "image/png"
    .ok (String.mk (b64encodeList bytes), mime_type)

/-- The MIME type `encode_image` reports for an existing file at a path. -/
def detectedMime (image_path : String) : String :=
  match guess_type (strOfPath image_path) with
  | some m => m
  | none => (mime_map.lookup (lowerStr (pathSuffix image_path))).getD "image/png"

/-- The base64 data `encode_image` reports for an existing file. -/
def encodedData (fs : FileSystem) (image_path : String) : String :=
  String.mk (b64encodeList (((fs image_path).getD [])))


/-! ## Payload builder, request side -/

/-- An uploaded image after encoding, as app.py stores it: dictionary
with the base64 data and the MIME type. -/
structure ImageDict where
  data : String
  mime_type : String
deriving DecidableEq

/-- One entry of a structured content list: an input_text fragment or an
input_image fragment carrying its image_url string. -/
inductive ContentItem where
  | inputText (text : String)
  | inputImage (image_url : String)
deriving DecidableEq

/-- A user-role message of the structured form. -/
structure ChatMessage where
  role : String
  content : List ContentItem
deriving DecidableEq

/-- The value `build_input` returns: either the bare text string or a
list of structured messages. -/
inductive InputPayload where
  | plain (text : String)
  | structured (messages : List ChatMessage)
deriving DecidableEq

/-- The data URL written for a local image fragment. -/
def dataUrl (mime_type data : String) : String :=
  "data:" ++ mime_type ++ ";base64," ++ data

/-- app.py `build_input` (the identical function also appears in
api/index.py): bare text when no image was uploaded, otherwise a single
user message whose content starts with an input_text fragment when the
message is non-empty, followed by one input_image fragment per uploaded
image carrying a base64 data URL. -/
def build_input (message : String) (images : List ImageDict) : InputPayload :=
  if images = [] then .plain message
  else
    .structured [⟨"user",
      (if message = "" then [] else [ContentItem.inputText message])
        ++ images.map (fun img =>
          ContentItem.inputImage (dataUrl img.mime_type img.data))⟩]

/-- The local-image loop of chat.py and continue_conversation.py
`build_input`: one data-URL fragment per local path in order; each local
file is encoded as it is reached, and the first missing one raises. -/
def encodeLocalFrags (fs : FileSystem) : List String → Except String (List ContentItem)
  | [] => .ok []
  | img_path :: rest => do
    let enc ← encode_image fs img_path
    let tail ← encodeLocalFrags fs rest
    pure (ContentItem.inputImage (dataUrl enc.snd enc.fst) :: tail)

/-- chat.py and continue_conversation.py `build_input`: bare text when
neither local image paths nor image URLs are pending; otherwise a single
user message listing the optional text fragment, then the local-image
fragments, then one literal-URL fragment per URL in order. -/
def build_input_cli (fs : FileSystem) (message : String)
    (image_paths image_urls : List String) : Except String InputPayload := do
  if image_paths = [] ∧ image_urls = [] then .ok (.plain message)
  else do
    let localFrags ← encodeLocalFrags fs image_paths
    pure (.structured [⟨"user",
      (if message = "" then [] else [ContentItem.inputText message])
        ++ localFrags
        ++ image_urls.map (fun url => ContentItem.inputImage url)⟩])

/-! ## Payload builder, reply-extraction side

Reply objects from the upstream SDK are dynamic: the sources test some
attributes with `hasattr` and read others unconditionally.  Attributes
are therefore modelled as optional fields, and an unconditional read of a
missing attribute is Python raising AttributeError, which the
surrounding route handler catches; `Except Unit` models that. -/

/-- One content fragment of an output item; both attributes may be
absent. -/
structure Fragment where
  type? : Option String
  text? : Option String
deriving DecidableEq

/-- One output item of a reply; both attributes may be absent. -/
structure OutputItem where
  type? : Option String
  content? : Option (List Fragment)
deriving DecidableEq

/-- Python attribute read without a `hasattr` guard: AttributeError when
the attribute is missing. -/
def getAttr {α : Type} : Option α → Except Unit α
  | some a => .ok a
  | none => .error ()

/-- Inner loop of the reply extraction in app.py `send_message` (also in
api/index.py `send_message`): reads `content.type` unconditionally,
concatenates `content.text` of the fragments whose type is output_text,
reading `content.text` unconditionally on those. -/
def extractFragsTyped : List Fragment → Except Unit String
  | [] => .ok ""
  | c :: rest => do
    let ct ← getAttr c.type?
    let piece ← if ct = "output_text" then getAttr c.text? else pure ""
    let restText ← extractFragsTyped rest
    pure (piece ++ restText)

/-- Reply extraction in app.py `send_message`: iterates output items in
order, reads `item.type` unconditionally, and for message items iterates
`item.content` (read unconditionally) with `extractFragsTyped`,
concatenating everything into one accumulator. -/
def extract_send_message : List OutputItem → Except Unit String
  | [] => .ok ""
  | item :: rest => do
    let t ← getAttr item.type?
    let acc ←
      if t = "message" then do
        let frags ← getAttr item.content?
        extractFragsTyped frags
      else pure ""
    let restText ← extract_send_message rest
    pure (acc ++ restText)

/-- Inner loop of the output extraction in app.py `get_response_history`:
fragments are only probed with `hasattr(c, "text")`, so any fragment
shape is tolerated and every present text contributes. -/
def extractFragsHasattr : List Fragment → String
  | [] => ""
  | c :: rest =>
    (match c.text? with
      | some tx => tx
      | none => "") ++ extractFragsHasattr rest

/-- Item loop of the output extraction in app.py `get_response_history`:
`item.type` and, for message items, `item.content` are read
unconditionally; fragments go through the `hasattr`-guarded loop. -/
def extractHistoryItems : List OutputItem → Except Unit String
  | [] => .ok ""
  | item :: rest => do
    let t ← getAttr item.type?
    let acc ←
      if t = "message" then do
        let frags ← getAttr item.content?
        pure (extractFragsHasattr frags)
      else pure ""
    let restText ← extractHistoryItems rest
    pure (acc ++ restText)

/-- Output extraction of app.py `get_response_history`: the accumulator
stays empty unless the reply has an output attribute whose value is a
non-empty list (`hasattr(response, "output") and response.output`). -/
def extract_history_output (output? : Option (List OutputItem)) :
    Except Unit String :=
  match output? with
  | none => .ok ""
  | some items => extractHistoryItems items

/-- Well-formedness a fragment needs for the typed extraction to read it
without AttributeError: a type attribute, and a text attribute when the
type is output_text. -/
def fragOK (c : Fragment) : Bool :=
  match c.type? with
  | none => false
  | some t => if t = "output_text" then c.text?.isSome else true

/-- Well-formedness an output item needs for the typed extraction: a type
attribute, and for message items a content attribute with well-formed
fragments. -/
def itemOK (item : OutputItem) : Bool :=
  match item.type? with
  | none => false
  | some t =>
    if t = "message" then
      match item.content? with
      | none => false
      | some frags => frags.all fragOK
    else true

/-- Well-formedness an output item needs for the history extraction: a
type attribute, and for message items a content attribute (fragments are
arbitrary). -/
def itemOKHist (item : OutputItem) : Bool :=
  match item.type? with
  | none => false
  | some t =>
    if t = "message" then item.content?.isSome
    else true

/-- The reply text as the specification describes it: concatenation, in
order and with no separator, of the text of the output_text fragments
inside message items; other items and fragments contribute nothing. -/
def replyTextSpecFrags : List Fragment → String
  | [] => ""
  | c :: rest =>
    (if c.type? = some "output_text" then
      (match c.text? with
        | some tx => tx
        | none => "")
     else "") ++ replyTextSpecFrags rest

/-- Specified reply text over the output items. -/
def replyTextSpec : List OutputItem → String
  | [] => ""
  | item :: rest =>
    (if item.type? = some "message" then
      replyTextSpecFrags ((item.content?).getD [])
     else "") ++ replyTextSpec rest

/-- Text the history extraction is specified to produce: every present
fragment text inside message items, in order. -/
def historyTextSpec : List OutputItem → String
  | [] => ""
  | item :: rest =>
    (if item.type? = some "message" then
      extractFragsHasattr ((item.content?).getD [])
     else "") ++ historyTextSpec rest

/-! ## Model-list filter (app.py `get_models`) -/

/-- Substrings whose presence (case-insensitive) admits a model id. -/
def includeList : List String := ["gpt-4", "gpt-5", "o1", "o3", "chatgpt"]

/-- Substrings whose presence (case-sensitive, as in the source) rejects
a model id. -/
def skipList : List String := ["realtime", "audio", "transcribe", "search"]

/-- The filter condition of app.py `get_models` (also in api/index.py):
the lowercased id contains one of `includeList`, and the raw id contains
none of `skipList`. -/
def keepModel (model_id : String) : Bool :=
  includeList.any (fun p => substrIn p (lowerStr model_id))
    && !(skipList.any (fun sk => substrIn sk model_id))

/-- The priority table of the sort key in app.py `get_models`. -/
def priorityOrder : List String :=
  ["gpt-4o-mini", "gpt-4o", "gpt-4.1", "gpt-4.1-mini",
   "o1-mini", "o1", "o3-mini", "o3", "gpt-5", "chatgpt-4o"]

/-- Helper scanning the priority table for the first matching entry. -/
def rankAux : List String → Nat → String → Nat
  | [], _, _ => 100
  | p :: rest, i, m => if strStarts m p then i else rankAux rest (i + 1) m

/-- First component of the sort key of app.py `get_models`: index of the
first priority entry the id starts with, else 100. -/
def sortKeyRank (model_id : String) : Nat := rankAux priorityOrder 0 model_id

/-- The order `model_ids.sort(key=sort_key)` sorts by: the pair of the
rank and the id itself, compared lexicographically as Python compares
tuples and strings. -/
def modelLeB (a b : String) : Bool :=
  decide (sortKeyRank a < sortKeyRank b)
    || (decide (sortKeyRank a = sortKeyRank b) && strLe a b)

/-- The order as a decidable relation for `List.insertionSort`. -/
def ModelLe (a b : String) : Prop := modelLeB a b = true

instance : DecidableRel ModelLe := fun a b => instDecidableEqBool (modelLeB a b) true

/-- Filtering and sorting of app.py `get_models` (also api/index.py).
Python sorts stably by `sort_key`; the key determines the id (its second
component is the id itself), so `ModelLe` is antisymmetric and every
correct sort returns the same list; `insertionSort` is used because it
evaluates inside the kernel. -/
def get_models_filter (ids : List String) : List String :=
  (ids.filter keepModel).insertionSort ModelLe

/-! ## Helper lemmas -/

theorem ex_pure {ε α : Type} (a : α) : (pure a : Except ε α) = .ok a := rfl

theorem ex_bind_ok {ε α β : Type} (a : α) (k : α → Except ε β) :
    (Except.ok a >>= k) = k a := rfl

theorem ex_bind_err {ε α β : Type} (e : ε) (k : α → Except ε β) :
    ((Except.error e : Except ε α) >>= k) = .error e := rfl

theorem extractFragsTyped_ok : ∀ frags : List Fragment, frags.all fragOK = true →
    extractFragsTyped frags = .ok (replyTextSpecFrags frags)
  | [], _ => rfl
  | c :: rest, h => by
    rw [List.all_cons, Bool.and_eq_true] at h
    have hc : fragOK c = true := h.1
    have hrest := extractFragsTyped_ok rest h.2
    cases hct : c.type? with
    | none => simp [fragOK, hct] at hc
    | some t =>
      by_cases ht : t = "output_text"
      · subst ht
        cases htx : c.text? with
        | none => simp [fragOK, hct, htx] at hc
        | some tx =>
          simp [extractFragsTyped, replyTextSpecFrags, hct, htx, getAttr,
            hrest, ex_bind_ok, ex_pure]
      · simp [extractFragsTyped, replyTextSpecFrags, hct, ht, getAttr,
          hrest, ex_bind_ok, ex_pure]

theorem extractHistoryItems_ok : ∀ items : List OutputItem,
    items.all itemOKHist = true →
    extractHistoryItems items = .ok (historyTextSpec items)
  | [], _ => rfl
  | item :: rest, h => by
    rw [List.all_cons, Bool.and_eq_true] at h
    have hi : itemOKHist item = true := h.1
    have hrest := extractHistoryItems_ok rest h.2
    cases hit : item.type? with
    | none => simp [itemOKHist, hit] at hi
    | some t =>
      by_cases ht : t = "message"
      · subst ht
        cases hic : item.content? with
        | none => simp [itemOKHist, hit, hic] at hi
        | some frags =>
          simp [extractHistoryItems, historyTextSpec, hit, hic, getAttr,
            hrest, ex_bind_ok, ex_pure]
      · simp [extractHistoryItems, historyTextSpec, hit, ht, getAttr,
          hrest, ex_bind_ok, ex_pure]

theorem encodeLocalFrags_ok (fs : FileSystem) : ∀ image_paths : List String,
    (∀ p ∈ image_paths, (fs p).isSome = true) →
    encodeLocalFrags fs image_paths = .ok (image_paths.map (fun p =>
      ContentItem.inputImage (dataUrl (detectedMime p) (encodedData fs p))))
  | [], _ => rfl
  | p :: rest, hex => by
    obtain ⟨bytes, hb⟩ := Option.isSome_iff_exists.mp (hex p (by simp))
    have henc : encode_image fs p = .ok (encodedData fs p, detectedMime p) := by
      simp [encode_image, hb, detectedMime, encodedData]
    have hrest := encodeLocalFrags_ok fs rest (fun q hq => hex q (by simp [hq]))
    simp [encodeLocalFrags, henc, hrest, ex_bind_ok, ex_pure]

theorem build_input_cli_eq (fs : FileSystem) (message : String)
    (image_paths image_urls : List String)
    (hne : ¬(image_paths = [] ∧ image_urls = []))
    (hex : ∀ p ∈ image_paths, (fs p).isSome = true) :
    build_input_cli fs message image_paths image_urls
      = .ok (.structured [⟨"user",
        (if message = "" then [] else [ContentItem.inputText message])
          ++ image_paths.map (fun p =>
              ContentItem.inputImage (dataUrl (detectedMime p) (encodedData fs p)))
          ++ image_urls.map (fun url => ContentItem.inputImage url)⟩]) := by
  simp [build_input_cli, hne, encodeLocalFrags_ok fs image_paths hex,
    ex_bind_ok, ex_pure]

/-! ## The claims -/

/-- C2: with a non-empty attachment list, `build_input` returns a single
user-role message whose content is the text fragment first exactly when
the text is non-empty, followed by one image fragment per attachment in
input order, nothing reordered, duplicated or dropped. -/
theorem claim_C2 (message : String) (images : List ImageDict) (h : images ≠ []) :
    ∃ content,
      build_input message images = .structured [⟨"user", content⟩]
      ∧ content = (if message = "" then [] else [ContentItem.inputText message])
          ++ images.map (fun img => ContentItem.inputImage (dataUrl img.mime_type img.data))
      ∧ content.length = (if message = "" then 0 else 1) + images.length
      ∧ (message ≠ "" → content.take 1 = [ContentItem.inputText message])
      ∧ content.drop (if message = "" then 0 else 1)
          = images.map (fun img => ContentItem.inputImage (dataUrl img.mime_type img.data)) := by
  refine ⟨_, ?_, rfl, ?_, ?_, ?_⟩
  · simp [build_input, h]
  · by_cases hm : message = "" <;> simp [hm, Nat.add_comm]
  · intro hm
    simp [hm]
  · by_cases hm : message = "" <;> simp [hm]

/-- C2 witness: `build_input "hi" [img1, img2]` is the user message with
content text, image1, image2 in that order. -/
theorem claim_C2_witness :
    build_input "hi" [⟨"D1", "image/png"⟩, ⟨"D2", "image/jpeg"⟩]
      = .structured [⟨"user",
          [ContentItem.inputText "hi",
           ContentItem.inputImage (dataUrl "image/png" "D1"),
           ContentItem.inputImage (dataUrl "image/jpeg" "D2")]⟩] := by
  obtain ⟨c, h1, h2, -, -, -⟩ :=
    claim_C2 "hi" [⟨"D1", "image/png"⟩, ⟨"D2", "image/jpeg"⟩] (by decide)
  rw [h1, h2]
  rfl

/-- C3: on well-formed replies, the `send_message` extraction returns the
concatenation, in order with no separator, of the text of exactly the
output_text fragments inside message items; other items contribute
nothing. -/
theorem claim_C3 : ∀ items : List OutputItem, items.all itemOK = true →
    extract_send_message items = .ok (replyTextSpec items)
  | [], _ => rfl
  | item :: rest, h => by
    rw [List.all_cons, Bool.and_eq_true] at h
    have hi : itemOK item = true := h.1
    have hrest := claim_C3 rest h.2
    cases hit : item.type? with
    | none => simp [itemOK, hit] at hi
    | some t =>
      by_cases ht : t = "message"
      · subst ht
        cases hic : item.content? with
        | none => simp [itemOK, hit, hic] at hi
        | some frags =>
          have hfr : frags.all fragOK = true := by simpa [itemOK, hit, hic] using hi
          simp [extract_send_message, replyTextSpec, hit, hic, getAttr,
            extractFragsTyped_ok frags hfr, hrest, ex_bind_ok, ex_pure]
      · simp [extract_send_message, replyTextSpec, hit, ht, getAttr,
          hrest, ex_bind_ok, ex_pure]

/-- C3 witness: the reply with an unrelated item and two message items
carrying output_text A and B extracts to AB; the hypothesis of
`claim_C3` is discharged by computation. -/
theorem claim_C3_witness :
    extract_send_message
      [⟨some "other", none⟩,
       ⟨some "message", some [⟨some "output_text", some "A"⟩]⟩,
       ⟨some "message", some [⟨some "output_text", some "B"⟩]⟩] = .ok "AB" :=
  (claim_C3
    [⟨some "other", none⟩,
     ⟨some "message", some [⟨some "output_text", some "A"⟩]⟩,
     ⟨some "message", some [⟨some "output_text", some "B"⟩]⟩] (by decide)).trans rfl

/-- C4 as stated is false: the `send_message` extraction raises (modelled
as `Except.error`) on a reply whose output items are present when a
fragment typed output_text has no text attribute, instead of
contributing nothing. -/
theorem claim_C4_cex :
    extract_send_message [⟨some "message", some [⟨some "output_text", none⟩]⟩]
      = .error () := rfl

/-- C4 (amended): the `get_response_history` output extraction is total
over fragments of any shape, provided each item exposes a type and each
message item exposes a content list; fragments without text contribute
nothing, and an absent or empty output yields the empty string rather
than an error; no MalformedReplyError type exists in the code, failures
surfacing as generic caught exceptions. -/
theorem claim_C4 (output? : Option (List OutputItem))
    (h : (output?.getD []).all itemOKHist = true) :
    extract_history_output output? = .ok (historyTextSpec (output?.getD [])) := by
  cases output? with
  | none => rfl
  | some items => exact extractHistoryItems_ok items (by simpa using h)

/-- C4 witness: a message item with one untyped fragment carrying text X
and one refusal fragment without text extracts, without error, to X. -/
theorem claim_C4_witness :
    extract_history_output
      (some [⟨some "message", some [⟨none, some "X"⟩, ⟨some "refusal", none⟩]⟩])
      = .ok "X" :=
  (claim_C4
    (some [⟨some "message", some [⟨none, some "X"⟩, ⟨some "refusal", none⟩]⟩])
    (by decide)).trans rfl

/-- C5: the data field of `encode_image_bytes` is the standard padded
base64 encoding of the input bytes, so decoding it restores the bytes
exactly, for every byte buffer including the empty one and every file
name. -/
theorem claim_C5 (data : List Nat) (filename : String)
    (h : ∀ x ∈ data, x < 256) :
    b64decodeStr (encode_image_bytes data filename).fst = some data :=
  b64_roundtrip data h

/-- C5 witness: the bytes 77, 97, 110 round-trip through the encoder. -/
theorem claim_C5_witness :
    b64decodeStr (encode_image_bytes [77, 97, 110] "a.png").fst = some [77, 97, 110] :=
  claim_C5 [77, 97, 110] "a.png" (by decide)

/-- C6: with no attachments, `build_input` returns the text unchanged as
the bare plain-text form, for every string including the empty one. -/
theorem claim_C6 (text : String) : build_input text [] = .plain text := rfl

/-! ## Order lemmas for the model-list sort -/

theorem char_eq_of_toNat_eq {a b : Char} (h : a.toNat = b.toNat) : a = b :=
  Char.ext (UInt32.ext h)

theorem charsLe_trans : ∀ x y z : List Char,
    charsLe x y = true → charsLe y z = true → charsLe x z = true
  | [], _, _, _, _ => rfl
  | _ :: _, [], _, h1, _ => by simp [charsLe] at h1
  | _ :: _, _ :: _, [], _, h2 => by simp [charsLe] at h2
  | a :: as, b :: bs, c :: cs, h1, h2 => by
    rcases Nat.lt_trichotomy a.toNat b.toNat with hab | hab | hab
    · rcases Nat.lt_trichotomy b.toNat c.toNat with hbc | hbc | hbc
      · simp [charsLe, show a.toNat < c.toNat by omega]
      · simp [charsLe, show a.toNat < c.toNat by omega]
      · simp [charsLe, show ¬ b.toNat < c.toNat by omega,
          show ¬ b.toNat = c.toNat by omega] at h2
    · rcases Nat.lt_trichotomy b.toNat c.toNat with hbc | hbc | hbc
      · simp [charsLe, show a.toNat < c.toNat by omega]
      · simp only [charsLe, if_neg (show ¬ a.toNat < b.toNat by omega),
          if_pos hab] at h1
        simp only [charsLe, if_neg (show ¬ b.toNat < c.toNat by omega),
          if_pos hbc] at h2
        simp only [charsLe, if_neg (show ¬ a.toNat < c.toNat by omega),
          if_pos (show a.toNat = c.toNat by omega)]
        exact charsLe_trans as bs cs h1 h2
      · simp [charsLe, show ¬ b.toNat < c.toNat by omega,
          show ¬ b.toNat = c.toNat by omega] at h2
    · simp [charsLe, show ¬ a.toNat < b.toNat by omega,
        show ¬ a.toNat = b.toNat by omega] at h1

theorem charsLe_total : ∀ x y : List Char,
    charsLe x y = true ∨ charsLe y x = true
  | [], _ => Or.inl rfl
  | _ :: _, [] => Or.inr rfl
  | a :: as, b :: bs => by
    rcases Nat.lt_trichotomy a.toNat b.toNat with h | h | h
    · exact Or.inl (by simp [charsLe, h])
    · rcases charsLe_total as bs with ih | ih
      · exact Or.inl (by
          simp only [charsLe, if_neg (show ¬ a.toNat < b.toNat by omega), if_pos h]
          exact ih)
      · exact Or.inr (by
          simp only [charsLe, if_neg (show ¬ b.toNat < a.toNat by omega),
            if_pos h.symm]
          exact ih)
    · exact Or.inr (by simp [charsLe, h])

theorem charsLe_antisymm : ∀ x y : List Char,
    charsLe x y = true → charsLe y x = true → x = y
  | [], [], _, _ => rfl
  | [], _ :: _, _, h2 => by simp [charsLe] at h2
  | _ :: _, [], h1, _ => by simp [charsLe] at h1
  | a :: as, b :: bs, h1, h2 => by
    rcases Nat.lt_trichotomy a.toNat b.toNat with h | h | h
    · simp [charsLe, show ¬ b.toNat < a.toNat by omega,
        show ¬ b.toNat = a.toNat by omega] at h2
    · simp only [charsLe, if_neg (show ¬ a.toNat < b.toNat by omega),
        if_pos h] at h1
      simp only [charsLe, if_neg (show ¬ b.toNat < a.toNat by omega),
        if_pos h.symm] at h2
      rw [char_eq_of_toNat_eq h, charsLe_antisymm as bs h1 h2]
    · simp [charsLe, show ¬ a.toNat < b.toNat by omega,
        show ¬ a.toNat = b.toNat by omega] at h1

theorem strLe_antisymm (a b : String) (h1 : strLe a b = true)
    (h2 : strLe b a = true) : a = b := by
  cases a with
  | mk la =>
    cases b with
    | mk lb =>
      rw [charsLe_antisymm la lb h1 h2]

theorem modelLe_trans (a b c : String) (h1 : ModelLe a b) (h2 : ModelLe b c) :
    ModelLe a c := by
  unfold ModelLe modelLeB at h1 h2 ⊢
  simp only [Bool.or_eq_true, Bool.and_eq_true, decide_eq_true_eq] at h1 h2 ⊢
  rcases h1 with h1 | ⟨h1e, h1s⟩ <;> rcases h2 with h2 | ⟨h2e, h2s⟩
  · exact Or.inl (by omega)
  · exact Or.inl (by omega)
  · exact Or.inl (by omega)
  · exact Or.inr ⟨by omega, charsLe_trans _ _ _ h1s h2s⟩

theorem modelLe_total (a b : String) : ModelLe a b ∨ ModelLe b a := by
  unfold ModelLe modelLeB
  simp only [Bool.or_eq_true, Bool.and_eq_true, decide_eq_true_eq]
  rcases Nat.lt_trichotomy (sortKeyRank a) (sortKeyRank b) with h | h | h
  · exact Or.inl (Or.inl h)
  · rcases charsLe_total a.data b.data with hs | hs
    · exact Or.inl (Or.inr ⟨h, hs⟩)
    · exact Or.inr (Or.inr ⟨h.symm, hs⟩)
  · exact Or.inr (Or.inl h)

theorem modelLe_antisymm (a b : String) (h1 : ModelLe a b) (h2 : ModelLe b a) :
    a = b := by
  unfold ModelLe modelLeB at h1 h2
  simp only [Bool.or_eq_true, Bool.and_eq_true, decide_eq_true_eq] at h1 h2
  rcases h1 with h1 | ⟨h1e, h1s⟩ <;> rcases h2 with h2 | ⟨h2e, h2s⟩
  · omega
  · omega
  · omega
  · exact strLe_antisymm a b h1s h2s

instance : IsTrans String ModelLe := ⟨modelLe_trans⟩

instance : IsTotal String ModelLe := ⟨modelLe_total⟩

theorem guess_type_eq_lookup (f e : String) (he : splitextExtLower f = e)
    (h1 : suffix_map.lookup e = none)
    (h2 : ∀ k ∈ encodings_map_keys, lowerStr k ≠ e) :
    guess_type f = types_map.lookup e := by
  have hext : lowerStr (String.mk (splitextChars f.data).snd) = e := he
  have hcontains :
      encodings_map_keys.contains (String.mk (splitextChars f.data).snd) = false := by
    cases hc : encodings_map_keys.contains (String.mk (splitextChars f.data).snd) with
    | false => rfl
    | true =>
      have hmem : String.mk (splitextChars f.data).snd ∈ encodings_map_keys :=
        List.elem_iff.mp hc
      exact absurd hext (h2 _ hmem)
  simp only [guess_type, hext, h1, hcontains, Bool.false_eq_true, if_false]

/-- C1 (amended): for a file name whose extension is one of png, jpg,
jpeg, gif, webp, the encoder returns the table-mapped type; when the
platform `mimetypes` detection finds nothing and the extension is not in
the fallback table either, it returns image/png.  (A filename extension
known to the platform table, such as txt, yields that tables type
rather than image/png; see the counterexample.) -/
theorem claim_C1 (data : List Nat) (f e : String)
    (h1 : splitextExtLower f = e) (h2 : lowerStr (pathSuffix f) = e) :
    (e ∈ [".png", ".jpg", ".jpeg", ".gif", ".webp"] →
      (encode_image_bytes data f).snd = (mime_map.lookup e).getD "image/png")
    ∧ (guess_type f = none → mime_map.lookup e = none →
      (encode_image_bytes data f).snd = "image/png") := by
  have hsnd : (encode_image_bytes data f).snd
      = (match guess_type f with
         | some m => m
         | none => (mime_map.lookup (lowerStr (pathSuffix f))).getD "image/png") := rfl
  constructor
  · intro hmem
    simp only [List.mem_cons, List.not_mem_nil, or_false] at hmem
    rcases hmem with rfl | rfl | rfl | rfl | rfl
    · have hg : guess_type f = types_map.lookup ".png" :=
        guess_type_eq_lookup f ".png" h1 (by decide) (by decide)
      rw [hsnd, hg]
      rfl
    · have hg : guess_type f = types_map.lookup ".jpg" :=
        guess_type_eq_lookup f ".jpg" h1 (by decide) (by decide)
      rw [hsnd, hg]
      rfl
    · have hg : guess_type f = types_map.lookup ".jpeg" :=
        guess_type_eq_lookup f ".jpeg" h1 (by decide) (by decide)
      rw [hsnd, hg]
      rfl
    · have hg : guess_type f = types_map.lookup ".gif" :=
        guess_type_eq_lookup f ".gif" h1 (by decide) (by decide)
      rw [hsnd, hg]
      rfl
    · have hg : guess_type f = none := by
        rw [guess_type_eq_lookup f ".webp" h1 (by decide) (by decide)]
        decide
      rw [hsnd, hg, h2]
  · intro hg hm
    rw [hsnd, hg, h2, hm]
    rfl

/-- C1 fails as stated: txt is not one of the five recognized image
extensions, yet the encoder returns text/plain for it (the platform
`mimetypes` table is consulted before the image fallback), not
image/png. -/
theorem claim_C1_cex :
    (encode_image_bytes [] "notes.txt").snd = "text/plain"
    ∧ (encode_image_bytes [] "notes.txt").snd ≠ "image/png" := by
  decide

/-- C1 witness: a file name with extension PNG (detection lowercases it)
gets the table-mapped type image/png. -/
theorem claim_C1_witness :
    (encode_image_bytes [] "photo.PNG").snd = (mime_map.lookup ".png").getD "image/png" :=
  (claim_C1 [] "photo.PNG" ".png" (by decide) (by decide)).1 (by decide)

/-- C7: in every structured payload the CLI `build_input` produces, each
local-image fragment carries the data URL built from the detected MIME
type and base64 data of its file, and each remote-image fragment carries
the callers URL string literally. -/
theorem claim_C7 (fs : FileSystem) (message : String)
    (image_paths image_urls : List String)
    (hne : ¬(image_paths = [] ∧ image_urls = []))
    (hex : ∀ p ∈ image_paths, (fs p).isSome = true) :
    ∃ content, build_input_cli fs message image_paths image_urls
        = .ok (.structured [⟨"user", content⟩])
      ∧ (∀ p ∈ image_paths, ContentItem.inputImage
          ("data:" ++ detectedMime p ++ ";base64," ++ encodedData fs p) ∈ content)
      ∧ (∀ url ∈ image_urls, ContentItem.inputImage url ∈ content) := by
  refine ⟨_, build_input_cli_eq fs message image_paths image_urls hne hex, ?_, ?_⟩
  · intro p hp
    simp only [dataUrl, List.mem_append, List.mem_map]
    exact Or.inl (Or.inr ⟨p, hp, rfl⟩)
  · intro url hu
    simp only [List.mem_append, List.mem_map]
    exact Or.inr ⟨url, hu, rfl⟩

/-- C7 witness: one existing local file and one URL produce the data-URL
fragment and the literal-URL fragment. -/
theorem claim_C7_witness :
    ∃ content, build_input_cli (fun p => if p = "a.png" then some [1] else none)
        "hey" ["a.png"] ["http://u"]
        = .ok (.structured [⟨"user", content⟩])
      ∧ (∀ p ∈ ["a.png"], ContentItem.inputImage
          ("data:" ++ detectedMime p ++ ";base64,"
            ++ encodedData (fun p => if p = "a.png" then some [1] else none) p) ∈ content)
      ∧ (∀ url ∈ ["http://u"], ContentItem.inputImage url ∈ content) :=
  claim_C7 (fun p => if p = "a.png" then some [1] else none)
    "hey" ["a.png"] ["http://u"] (by decide) (by decide)

/-- C8: the model-list filter keeps exactly the ids passing the
include/skip test, sorts them by the priority rank with ties and unknown
ids (rank 100) in code-point lexical order — an order that is
antisymmetric, so the stable Python sort and any correct sort agree —
and maps the documented example to exactly the documented output. -/
theorem claim_C8 (ids : List String) :
    (get_models_filter ids).Perm (ids.filter keepModel)
    ∧ List.Sorted ModelLe (get_models_filter ids)
    ∧ (∀ m, m ∈ get_models_filter ids ↔ m ∈ ids ∧ keepModel m = true)
    ∧ (∀ a b, ModelLe a b → ModelLe b a → a = b)
    ∧ get_models_filter ["gpt-4o", "gpt-4o-mini", "text-embedding-ada-002", "whisper-1"]
        = ["gpt-4o-mini", "gpt-4o"] := by
  refine ⟨List.perm_insertionSort ModelLe _, List.sorted_insertionSort ModelLe _,
    ?_, modelLe_antisymm, by decide⟩
  intro m
  unfold get_models_filter
  rw [(List.perm_insertionSort ModelLe (ids.filter keepModel)).mem_iff]
  exact List.mem_filter

/-- C8 witness: the documented example, extracted from the theorem. -/
theorem claim_C8_witness :
    get_models_filter ["gpt-4o", "gpt-4o-mini", "text-embedding-ada-002", "whisper-1"]
      = ["gpt-4o-mini", "gpt-4o"] :=
  (claim_C8 []).2.2.2.2

/-- C9: `encode_image` fails (FileNotFoundError, surfaced directly)
exactly when the path has no file, and on an existing file returns the
encoded attachment without error. -/
theorem claim_C9 (fs : FileSystem) (image_path : String) :
    ((∃ err, encode_image fs image_path = .error err) ↔ fs image_path = none)
    ∧ (∀ bytes, fs image_path = some bytes →
        encode_image fs image_path
          = .ok (String.mk (b64encodeList bytes), detectedMime image_path)) := by
  cases hfs : fs image_path with
  | none =>
    refine ⟨⟨fun _ => rfl, fun _ => ⟨"Image not found: " ++ image_path, ?_⟩⟩, ?_⟩
    · simp [encode_image, hfs]
    · intro bytes hb
      exact absurd hb (by simp)
  | some b =>
    refine ⟨⟨?_, ?_⟩, ?_⟩
    · rintro ⟨err, herr⟩
      simp [encode_image, hfs] at herr
    · intro hcontra
      exact absurd hcontra (by simp)
    · intro bytes hb
      injection hb with hb
      subst hb
      simp [encode_image, hfs, detectedMime]

/-- C9 witness: a file system holding one file a.png with byte 1; the
encoder succeeds on it and fails on a missing path. -/
theorem claim_C9_witness :
    encode_image (fun p => if p = "a.png" then some [1] else none) "a.png"
      = .ok (String.mk (b64encodeList [1]), detectedMime "a.png") :=
  (claim_C9 (fun p => if p = "a.png" then some [1] else none) "a.png").2 [1] rfl

/-- C10: the CLI `build_input` places the optional text fragment first,
then all local-image fragments in their given order, then all URL
fragments in their given order — the two kinds are never interleaved. -/
theorem claim_C10 (fs : FileSystem) (message : String)
    (image_paths image_urls : List String)
    (hne : ¬(image_paths = [] ∧ image_urls = []))
    (hex : ∀ p ∈ image_paths, (fs p).isSome = true) :
    build_input_cli fs message image_paths image_urls
      = .ok (.structured [⟨"user",
        (if message = "" then [] else [ContentItem.inputText message])
          ++ image_paths.map (fun p =>
              ContentItem.inputImage (dataUrl (detectedMime p) (encodedData fs p)))
          ++ image_urls.map (fun url => ContentItem.inputImage url)⟩]) :=
  build_input_cli_eq fs message image_paths image_urls hne hex

/-- C10 witness: two local files and one URL, with text, produce the
text fragment, the two local fragments in order, then the URL fragment. -/
theorem claim_C10_witness :
    build_input_cli
        (fun p => if p = "a.png" then some [1] else if p = "b.gif" then some [2] else none)
        "hey" ["a.png", "b.gif"] ["http://u"]
      = .ok (.structured [⟨"user",
          [ContentItem.inputText "hey",
           ContentItem.inputImage "data:image/png;base64,AQ==",
           ContentItem.inputImage "data:image/gif;base64,Ag==",
           ContentItem.inputImage "http://u"]⟩]) :=
  (claim_C10
    (fun p => if p = "a.png" then some [1] else if p = "b.gif" then some [2] else none)
    "hey" ["a.png", "b.gif"] ["http://u"] (by decide) (by decide)).trans rfl

end PlaygroundSaver
